import Mathlib

/-!
# Verification of the exercise-tracker service (src/index.js)

A shallow embedding of the request handlers of `src/index.js`:

* `addExercise` embeds the `POST /api/users/:_id/exercises` handler;
* `getLog` embeds the `GET /api/users/:_id/logs` handler.

Instants are modelled as integers (milliseconds since the Unix epoch, as in
JavaScript `Date.getTime()`).  Request field values arrive as strings
(urlencoded bodies / query parameters), absent fields as `none`.  The server's
timezone is a fixed `tzOffset : Int`, the value of JavaScript
`Date.prototype.getTimezoneOffset` (minutes, UTC minus local — e.g. `420`
for UTC-7, `-120` for UTC+2).  JavaScript numbers that actually occur
(durations) are modelled as unnormalized decimal pairs (`JsNum`); the
numeric literals modelled are the
decimal fragment (optional sign, digits, optional fraction) — exotic forms
such as exponents, hex or `Infinity` are outside the modelled input alphabet.
-/

/-- Milliseconds per day. -/
def msPerDay : Int := 86400000

/-- Milliseconds of 12:00:00 within a day (the noon-UTC anchor of line 117). -/
def noonMs : Int := 43200000

/-- Milliseconds of 23:59:59 within a day (the `to` bound anchor of line 189). -/
def endOfDayMs : Int := 86399000

/-- Gregorian leap-year test. -/
def isLeapYear (y : Int) : Bool :=
  y % 4 == 0 && (y % 100 != 0 || y % 400 == 0)

/-- Number of days in month `m` (1..12) of year `y`. -/
def daysInMonth (y m : Int) : Int :=
  if m == 2 then (if isLeapYear y then 29 else 28)
  else if m == 4 || m == 6 || m == 9 || m == 11 then 30
  else 31

/-- Days since 1970-01-01 of the civil date `y-m-d` (proleptic Gregorian),
the day-count arithmetic JavaScript `Date` performs for UTC fields. -/
def daysFromCivil (y m d : Int) : Int :=
  let y2 := y - (if m <= 2 then 1 else 0)
  let era := Int.fdiv y2 400
  let yoe := y2 - era * 400
  let mp := Int.fmod (m + 9) 12
  let doy := Int.fdiv (153 * mp + 2) 5 + d - 1
  let doe := yoe * 365 + Int.fdiv yoe 4 - Int.fdiv yoe 100 + doy
  era * 146097 + doe - 719468

/-- Civil date `(y, m, d)` of a count of days since 1970-01-01; inverse of
`daysFromCivil`. -/
def civilFromDays (z : Int) : Int × Int × Int :=
  let z2 := z + 719468
  let era := Int.fdiv z2 146097
  let doe := z2 - era * 146097
  let yoe := Int.fdiv (doe - Int.fdiv doe 1460 + Int.fdiv doe 36524 - Int.fdiv doe 146096) 365
  let y := yoe + era * 400
  let doy := doe - (365 * yoe + Int.fdiv yoe 4 - Int.fdiv yoe 100)
  let mp := Int.fdiv (5 * doy + 2) 153
  let d := doy - Int.fdiv (153 * mp + 2) 5 + 1
  let m := mp + (if mp < 10 then 3 else -9)
  (y + (if m <= 2 then 1 else 0), m, d)

/-- The UTC civil day (days since epoch) containing instant `t`. -/
def utcDayOf (t : Int) : Int := Int.fdiv t msPerDay

/-- Decimal value of a list of digit characters. -/
def digitsVal (cs : List Char) : Nat :=
  cs.foldl (fun acc c => acc * 10 + (c.toNat - 48)) 0

/-- Parse a `YYYY-MM-DD` string into a civil date, rejecting malformed shapes
and out-of-range calendar components, as JavaScript `Date` does for ISO date
strings (`new Date("2024-02-30T12:00:00Z")` is an Invalid Date). -/
def parseYMD (s : String) : Option (Int × Int × Int) :=
  match s.data with
  | [y1, y2, y3, y4, c1, m1, m2, c2, d1, d2] =>
    if c1 == '-' && c2 == '-' &&
       [y1, y2, y3, y4, m1, m2, d1, d2].all Char.isDigit then
      let y : Int := digitsVal [y1, y2, y3, y4]
      let m : Int := digitsVal [m1, m2]
      let d : Int := digitsVal [d1, d2]
      if 1 <= m && m <= 12 && 1 <= d && d <= daysInMonth y m then
        some (y, m, d)
      else none
    else none
  | _ => none

/-- `new Date(s + "T<tod>Z")` for a `YYYY-MM-DD` string `s`: the UTC instant at
time-of-day `todMs` of the named day, or `none` (Invalid Date) if unparseable.
Used with `noonMs` on line 117, `0` on line 181 and `endOfDayMs` on line 189. -/
def parseCalendarDate (s : String) (todMs : Int) : Option Int :=
  (parseYMD s).map fun ymd => daysFromCivil ymd.1 ymd.2.1 ymd.2.2 * msPerDay + todMs

/-- JavaScript weekday abbreviations, index 0 = Sunday. -/
def weekdayName (w : Int) : String :=
  ["Sun", "Mon", "Tue", "Wed", "Thu", "Fri", "Sat"].getD w.toNat ""

/-- JavaScript month abbreviations, index 0 = January. -/
def monthName (m : Int) : String :=
  ["Jan", "Feb", "Mar", "Apr", "May", "Jun",
   "Jul", "Aug", "Sep", "Oct", "Nov", "Dec"].getD m.toNat ""

/-- Two-digit zero-padded rendering of a day-of-month. -/
def pad2 (n : Int) : String :=
  if n < 10 then "0" ++ toString n else toString n

/-- JavaScript `Date.prototype.toDateString` of instant `t` on a machine whose
`getTimezoneOffset` is `tzOffset`: the calendar day of the **local** wall-clock
time of `t`, rendered as e.g. `"Mon Jan 15 2024"` (1970-01-01 was a Thursday,
hence the `+ 4` in the weekday). -/
def toDateString (t tzOffset : Int) : String :=
  let localMs := t - tzOffset * 60000
  let day := Int.fdiv localMs msPerDay
  let ymd := civilFromDays day
  let w := Int.fmod (day + 4) 7
  weekdayName w ++ " " ++ monthName (ymd.2.1 - 1) ++ " " ++ pad2 ymd.2.2
    ++ " " ++ toString ymd.1

/-- The civil day named by `toDateString t tzOffset` (the rendered calendar
day, without the formatting). -/
def renderedCivilDay (t tzOffset : Int) : Int × Int × Int :=
  civilFromDays (Int.fdiv (t - tzOffset * 60000 - tzOffset * 60000) msPerDay)

/-- Lines 137-138: the `date` string of the `POST .../exercises` response,
`new Date(exerciseDate.getTime() - (exerciseDate.getTimezoneOffset() * 60000)).toDateString()`. -/
def renderResponseDate (t tzOffset : Int) : String :=
  toDateString (t - tzOffset * 60000) tzOffset

/-- Lines 218-221: the `date` string of a `GET .../logs` log entry,
`new Date(dateObj.getTime() - (dateObj.getTimezoneOffset() * 60000)).toDateString()`. -/
def renderLogDate (t tzOffset : Int) : String :=
  toDateString (t - tzOffset * 60000) tzOffset

/-- JavaScript truthiness of an optional string field: `undefined` and the
empty string are falsy (`!description`, `if (date)`, `if (limit)`, ...). -/
def truthy (o : Option String) : Bool :=
  match o with
  | none => false
  | some s => !s.isEmpty

/-- Whitespace characters trimmed by JavaScript string-to-number conversion. -/
def isJsSpace (c : Char) : Bool :=
  c == ' ' || c == '\t' || c == '\n' || c == '\r'

/-- JavaScript `parseInt(s)` (line 203): skip leading whitespace, optional
sign, then the longest digit prefix; `none` is `NaN` (no digits).  A leading
`0x` hex literal is outside the modelled input alphabet. -/
def jsParseInt (s : String) : Option Int :=
  let cs := s.data.dropWhile isJsSpace
  let signAndRest : Int × List Char :=
    match cs with
    | '-' :: rest => (-1, rest)
    | '+' :: rest => (1, rest)
    | _ => (1, cs)
  let digits := signAndRest.2.takeWhile Char.isDigit
  if digits.isEmpty then none
  else some (signAndRest.1 * (digitsVal digits : Int))

/-- A JavaScript number restricted to decimal values: the value is
`num / 10 ^ scale`, unnormalized (the pair is determined by the source
literal).  Keeps all arithmetic kernel-computable. -/
structure JsNum where
  num : Int
  scale : Nat
deriving DecidableEq, Repr

/-- The rational value of a `JsNum`. -/
def JsNum.toRat (x : JsNum) : Rat := (x.num : Rat) / (10 : Rat) ^ x.scale

/-- The value of `x` is strictly positive (sign of `num / 10 ^ scale`). -/
def JsNum.isPos (x : JsNum) : Prop := 0 < x.num

/-- The value of `x` is an integer. -/
def JsNum.isIntegral (x : JsNum) : Prop := ((10 : Int) ^ x.scale) ∣ x.num

instance (x : JsNum) : Decidable x.isPos := by unfold JsNum.isPos; infer_instance

instance (x : JsNum) : Decidable x.isIntegral := by unfold JsNum.isIntegral; infer_instance

/-- JavaScript `Number(s)` (line 109) on the decimal fragment: trims
whitespace, a whitespace-only string is `0`, otherwise an optional sign
followed by digits with an optional fractional part, fully consumed; `none`
is `NaN`.  Exponents, hex and `Infinity` are outside the modelled alphabet. -/
def jsNumber (s : String) : Option JsNum :=
  let cs := (s.data.dropWhile isJsSpace).reverse.dropWhile isJsSpace |>.reverse
  if cs.isEmpty then some ⟨0, 0⟩
  else
    let signAndRest : Int × List Char :=
      match cs with
      | '-' :: rest => (-1, rest)
      | '+' :: rest => (1, rest)
      | _ => (1, cs)
    let intPart := signAndRest.2.takeWhile Char.isDigit
    let rest := signAndRest.2.drop intPart.length
    match rest with
    | [] =>
      if intPart.isEmpty then none
      else some ⟨signAndRest.1 * digitsVal intPart, 0⟩
    | '.' :: frac =>
      if frac.all Char.isDigit && !(intPart.isEmpty && frac.isEmpty) then
        some ⟨signAndRest.1 * digitsVal (intPart ++ frac), frac.length⟩
      else none
    | _ => none

/-- `mongoose.Types.ObjectId.isValid` (lines 93, 164): a 24-character hex
string, or any 12-character string (12-byte form). -/
def isValidObjectId (s : String) : Bool :=
  (s.length == 24 && s.data.all fun c => c.isDigit ||
    ('a' <= c && c <= 'f') || ('A' <= c && c <= 'F')) ||
  s.length == 12

/-- A document of the `users` collection (lines 27-29). -/
structure UserDoc where
  _id : String
  username : String
deriving DecidableEq, Repr

/-- A document of the `exercises` collection (lines 32-37): `date` is the
stored UTC instant in epoch milliseconds. -/
structure ExerciseDoc where
  userId : String
  description : String
  duration : JsNum
  date : Int
deriving DecidableEq, Repr

/-- The document store: the two collections. -/
structure Store where
  users : List UserDoc
  exercises : List ExerciseDoc
deriving DecidableEq, Repr

/-- The error classes of the spec's taxonomy, with the message the handler
puts in the `{error: ...}` body.  `invalidIdError` is `'Invalid user ID
format'`, `notFoundError` is `'User not found'`. -/
inductive ApiError where
  | invalidIdError
  | notFoundError
  | validationError (msg : String)
deriving DecidableEq, Repr

instance {ε α : Type} [DecidableEq ε] [DecidableEq α] : DecidableEq (Except ε α) := by
  intro a b
  cases a <;> cases b
  case error.error x y =>
    exact if h : x = y then .isTrue (by rw [h]) else .isFalse (by simp [h])
  case ok.ok x y =>
    exact if h : x = y then .isTrue (by rw [h]) else .isFalse (by simp [h])
  case error.ok x y => exact .isFalse (by simp)
  case ok.error x y => exact .isFalse (by simp)

/-- The JSON error body of each error class. -/
def ApiError.message : ApiError → String
  | .invalidIdError => "Invalid user ID format"
  | .notFoundError => "User not found"
  | .validationError m => m

/-- The success body of `POST /api/users/:_id/exercises` (lines 141-147). -/
structure AddExerciseResponse where
  _id : String
  username : String
  description : String
  duration : JsNum
  date : String
deriving DecidableEq, Repr

/-- A `log` entry of the `GET /api/users/:_id/logs` body (lines 223-227). -/
structure LogEntry where
  description : String
  duration : JsNum
  date : String
deriving DecidableEq, Repr

/-- The success body of `GET /api/users/:_id/logs` (lines 238-243). -/
structure LogResponse where
  _id : String
  username : String
  count : Nat
  log : List LogEntry
deriving DecidableEq, Repr

/-- `User.findById` (lines 98, 169). -/
def findUserById (store : Store) (userId : String) : Option UserDoc :=
  store.users.find? fun u => u._id == userId

/-- Lines 114-124: resolve the exercise date.  A truthy `date` field must
parse as a calendar day, anchored at UTC noon; otherwise
`new Date(now.toISOString().split('T')[0] + 'T12:00:00Z')`: noon UTC of the
**UTC** calendar day of the current instant `now`. -/
def resolveExerciseDate (date : Option String) (now : Int) : Except ApiError Int :=
  if truthy date then
    match parseCalendarDate (date.getD "") noonMs with
    | some t => .ok t
    | none => .error (.validationError "Invalid date format")
  else
    .ok (utcDayOf now * msPerDay + noonMs)

/-- The `POST /api/users/:_id/exercises` handler (lines 84-152).  Returns the
response (or error body) together with the store after the request; `now` is
the server clock at the call, `tzOffset` the server's `getTimezoneOffset`. -/
def addExercise (store : Store) (userId : String)
    (description duration date : Option String) (now tzOffset : Int) :
    Except ApiError AddExerciseResponse × Store :=
  if !isValidObjectId userId then
    (.error .invalidIdError, store)
  else
    match findUserById store userId with
    | none => (.error .notFoundError, store)
    | some user =>
      if !truthy description || !truthy duration then
        (.error (.validationError "Description and duration are required"), store)
      else
        match jsNumber (duration.getD "") with
        | none => (.error (.validationError "Duration must be a number"), store)
        | some durationNum =>
          match resolveExerciseDate date now with
          | .error e => (.error e, store)
          | .ok exerciseDate =>
            let newExercise : ExerciseDoc :=
              ⟨userId, description.getD "", durationNum, exerciseDate⟩
            (.ok ⟨user._id, user.username, description.getD "", durationNum,
                  renderResponseDate exerciseDate tzOffset⟩,
             ⟨store.users, store.exercises ++ [newExercise]⟩)

/-- Lines 174-196: build the date part of the exercise query.  `none` bounds
mean no `$gte`/`$lte` clause; a truthy unparseable `from`/`to` is a
validation error. -/
def buildDateFilter (fromQ toQ : Option String) :
    Except ApiError (Option Int × Option Int) :=
  if truthy fromQ || truthy toQ then
    match (if truthy fromQ then
            match parseCalendarDate (fromQ.getD "") 0 with
            | some t => .ok (some t)
            | none => .error (ApiError.validationError "Invalid from date format")
          else .ok none : Except ApiError (Option Int)) with
    | .error e => .error e
    | .ok lo =>
      match (if truthy toQ then
              match parseCalendarDate (toQ.getD "") endOfDayMs with
              | some t => .ok (some t)
              | none => .error (ApiError.validationError "Invalid to date format")
            else .ok none : Except ApiError (Option Int)) with
      | .error e => .error e
      | .ok hi => .ok (lo, hi)
  else .ok (none, none)

/-- Whether an exercise document matches the query `{userId, date: {$gte lo,
$lte hi}}` the handler builds (lines 175-196). -/
def matchesQuery (userId : String) (lo hi : Option Int) (e : ExerciseDoc) : Bool :=
  e.userId == userId &&
  (match lo with | none => true | some l => l ≤ e.date) &&
  (match hi with | none => true | some h => e.date ≤ h)

/-- Insert an exercise into a date-ordered list, keeping the order. -/
def insertByDate (e : ExerciseDoc) : List ExerciseDoc → List ExerciseDoc
  | [] => [e]
  | x :: xs => if e.date ≤ x.date then e :: x :: xs else x :: insertByDate e xs

/-- Insertion sort of exercises by ascending `date`. -/
def sortByDate : List ExerciseDoc → List ExerciseDoc
  | [] => []
  | x :: xs => insertByDate x (sortByDate xs)

/-- `Exercise.find(query).sort({date: 1})` (line 199): the matching documents
in ascending `date` order. -/
def sortedMatches (store : Store) (userId : String) (lo hi : Option Int) :
    List ExerciseDoc :=
  sortByDate (store.exercises.filter (matchesQuery userId lo hi))

/-- Lines 202-207: a truthy `limit` that `parseInt`s to a positive number
truncates the result; anything else leaves it unchanged. -/
def applyLimit (limitQ : Option String) (l : List ExerciseDoc) : List ExerciseDoc :=
  if truthy limitQ then
    match jsParseInt (limitQ.getD "") with
    | some n => if 0 < n then l.take n.toNat else l
    | none => l
  else l

/-- `Exercise.countDocuments({ userId })` (line 231): the number of stored
exercises of the user, ignoring date filter and limit. -/
def countDocuments (store : Store) (userId : String) : Nat :=
  (store.exercises.filter fun e => e.userId == userId).length

/-- The `GET /api/users/:_id/logs` handler (lines 155-248). -/
def getLog (store : Store) (userId : String)
    (fromQ toQ limitQ : Option String) (tzOffset : Int) :
    Except ApiError LogResponse :=
  if !isValidObjectId userId then
    .error .invalidIdError
  else
    match findUserById store userId with
    | none => .error .notFoundError
    | some user =>
      match buildDateFilter fromQ toQ with
      | .error e => .error e
      | .ok bounds =>
        let exercises := applyLimit limitQ (sortedMatches store userId bounds.1 bounds.2)
        let log := exercises.map fun e =>
          ⟨e.description, e.duration, renderLogDate e.date tzOffset⟩
        .ok ⟨user._id, user.username, countDocuments store userId, log⟩

/-- The server's local calendar date at instant `t` with timezone offset
`tzOffset` (spec side: "the server's local calendar date at the time of the
call"). -/
def localCivilDay (t tzOffset : Int) : Int × Int × Int :=
  civilFromDays (Int.fdiv (t - tzOffset * 60000) msPerDay)

/-- A well-formed ObjectId used by the concrete scenarios. -/
def uidA : String := "aaaaaaaaaaaaaaaaaaaaaaaa"

/-- A well-formed ObjectId not present in any concrete store. -/
def uidB : String := "bbbbbbbbbbbbbbbbbbbbbbbb"

/-- A registered user for the concrete scenarios. -/
def userA : UserDoc := ⟨uidA, "alice"⟩

/-- A store holding one user and no exercises. -/
def store1 : Store := ⟨[userA], []⟩

/-- Noon UTC of January `d`, 2024, in epoch milliseconds. -/
def janNoon (d : Int) : Int := daysFromCivil 2024 1 d * msPerDay + noonMs

/-- A 30-minute exercise of `userA` on January `d`, 2024. -/
def exJan (d : Int) : ExerciseDoc := ⟨uidA, "run", ⟨30, 0⟩, janNoon d⟩

/-- A store with one user and five exercises spanning 2024-01-01..2024-01-05. -/
def store5 : Store := ⟨[userA], [exJan 1, exJan 2, exJan 3, exJan 4, exJan 5]⟩

/-- The five January exercises added out of chronological order. -/
def store3shuffled : Store := ⟨[userA], [exJan 3, exJan 1, exJan 2]⟩

/-- Structural dichotomy of the exercise handler: either it succeeds and the
store gains exactly the new exercise, or it fails and the store is returned
unchanged. -/
lemma addExercise_shape (store : Store) (userId : String)
    (description duration date : Option String) (now tzOffset : Int) :
    (∃ r e, addExercise store userId description duration date now tzOffset =
        (.ok r, ⟨store.users, store.exercises ++ [e]⟩)) ∨
    (∃ err, addExercise store userId description duration date now tzOffset =
        (.error err, store)) := by
  unfold addExercise
  repeat' split
  all_goals first
    | exact .inl ⟨_, _, rfl⟩
    | exact .inr ⟨_, rfl⟩

/-- Elimination principle for a successful `addExercise` call: every check
passed and the response and new store are built from the validated fields. -/
lemma addExercise_ok_elim (store : Store) (userId : String)
    (description duration date : Option String) (now tzOffset : Int)
    (r : AddExerciseResponse) (st2 : Store)
    (h : addExercise store userId description duration date now tzOffset = (.ok r, st2)) :
    ∃ user q t, isValidObjectId userId = true ∧
      findUserById store userId = some user ∧
      truthy description = true ∧ truthy duration = true ∧
      jsNumber (duration.getD "") = some q ∧
      resolveExerciseDate date now = .ok t ∧
      r = ⟨user._id, user.username, description.getD "", q,
           renderResponseDate t tzOffset⟩ ∧
      st2 = ⟨store.users, store.exercises ++ [⟨userId, description.getD "", q, t⟩]⟩ := by
  unfold addExercise at h
  split at h
  · simp at h
  next hvalid =>
    split at h
    · simp at h
    next user huser =>
      split at h
      · simp at h
      next hfields =>
        split at h
        · simp at h
        next q hq =>
          split at h
          · simp at h
          next t ht =>
            rw [Prod.mk.injEq] at h
            have hv : isValidObjectId userId = true := by
              revert hvalid; cases isValidObjectId userId <;> simp
            have hd : truthy description = true := by
              revert hfields; cases truthy description <;> simp
            have hd2 : truthy duration = true := by
              revert hfields; cases truthy duration <;> simp
            exact ⟨user, q, t, hv, huser, hd, hd2, hq, ht,
              (Except.ok.injEq _ _).mp h.1.symm, h.2.symm⟩

/-- Members of `insertByDate e l` are `e` or members of `l`. -/
lemma mem_insertByDate (a e : ExerciseDoc) (l : List ExerciseDoc) :
    a ∈ insertByDate e l ↔ a = e ∨ a ∈ l := by
  induction l with
  | nil => simp [insertByDate]
  | cons x xs ih =>
    rw [insertByDate]
    split
    · simp
    · simp only [List.mem_cons, ih]
      tauto

/-- Inserting into a date-ordered list keeps it date-ordered. -/
lemma pairwise_insertByDate (e : ExerciseDoc) (l : List ExerciseDoc)
    (h : l.Pairwise fun a b => a.date ≤ b.date) :
    (insertByDate e l).Pairwise fun a b => a.date ≤ b.date := by
  induction l with
  | nil => simp [insertByDate]
  | cons x xs ih =>
    rw [insertByDate]
    rw [List.pairwise_cons] at h
    split
    next hle =>
      refine List.pairwise_cons.mpr ⟨?_, List.pairwise_cons.mpr h⟩
      intro b hb
      rcases List.mem_cons.mp hb with hb | hb
      · exact hb ▸ hle
      · exact le_trans hle (h.1 b hb)
    next hgt =>
      refine List.pairwise_cons.mpr ⟨?_, ih h.2⟩
      intro b hb
      rcases (mem_insertByDate b e xs).mp hb with hb | hb
      · exact hb ▸ le_of_not_le hgt
      · exact h.1 b hb
/-- `sortByDate` returns a list that is pairwise ascending in `date`. -/
lemma pairwise_sortByDate (l : List ExerciseDoc) :
    (sortByDate l).Pairwise fun a b => a.date ≤ b.date := by
  induction l with
  | nil => exact List.Pairwise.nil
  | cons x xs ih => exact pairwise_insertByDate x _ ih

/-- `applyLimit` returns a sublist (it either truncates or does nothing). -/
lemma applyLimit_sublist (limitQ : Option String) (l : List ExerciseDoc) :
    (applyLimit limitQ l).Sublist l := by
  unfold applyLimit
  repeat' split
  all_goals first
    | exact List.take_sublist _ _
    | exact List.Sublist.refl _

/-- A `limit` that `parseInt`s to a positive `n` truncates to `n` entries. -/
lemma applyLimit_pos (s : String) (n : Int) (l : List ExerciseDoc)
    (hn : jsParseInt s = some n) (hpos : 0 < n) :
    applyLimit (some s) l = l.take n.toNat := by
  have hne : s.isEmpty = false := by
    cases he : s.isEmpty
    · rfl
    · rw [(String.isEmpty_iff s).mp he] at hn
      simp [jsParseInt] at hn
  unfold applyLimit
  simp only [truthy, hne, Bool.not_false, if_true, Option.getD_some, hn]
  rw [if_pos hpos]

/-- A `limit` that is empty, non-numeric or non-positive is ignored. -/
lemma applyLimit_noop (s : String) (l : List ExerciseDoc)
    (h : jsParseInt s = none ∨ ∃ m, jsParseInt s = some m ∧ m ≤ 0) :
    applyLimit (some s) l = l := by
  unfold applyLimit
  cases he : truthy (some s)
  · simp
  · simp only [if_true, Option.getD_some]
    rcases h with h | ⟨m, hm, hle⟩
    · rw [h]
    · simp only [hm]
      rw [if_neg (not_lt.mpr hle)]

/-- Elimination principle for a successful `getLog` call. -/
lemma getLog_ok_elim (store : Store) (userId : String)
    (fromQ toQ limitQ : Option String) (tzOffset : Int) (r : LogResponse)
    (h : getLog store userId fromQ toQ limitQ tzOffset = .ok r) :
    ∃ user lo hi, isValidObjectId userId = true ∧
      findUserById store userId = some user ∧
      buildDateFilter fromQ toQ = .ok (lo, hi) ∧
      r = ⟨user._id, user.username, countDocuments store userId,
           (applyLimit limitQ (sortedMatches store userId lo hi)).map
             fun e => ⟨e.description, e.duration, renderLogDate e.date tzOffset⟩⟩ := by
  unfold getLog at h
  split at h
  · simp at h
  next hvalid =>
    split at h
    · simp at h
    next user huser =>
      split at h
      · simp at h
      next bounds hbounds =>
        have hv : isValidObjectId userId = true := by
          revert hvalid; cases isValidObjectId userId <;> simp
        exact ⟨user, bounds.1, bounds.2, hv, huser, by rw [Prod.mk.eta]; exact hbounds,
          ((Except.ok.injEq _ _).mp h).symm⟩

/-- In a successful `buildDateFilter`, each bound is exactly the parsed value
of the corresponding truthy parameter (at 00:00:00 UTC for `from`, 23:59:59
UTC for `to`), and a falsy parameter contributes no bound. -/
lemma buildDateFilter_ok_elim (fromQ toQ : Option String) (lo hi : Option Int)
    (h : buildDateFilter fromQ toQ = .ok (lo, hi)) :
    lo = (if truthy fromQ then parseCalendarDate (fromQ.getD "") 0 else none) ∧
    hi = (if truthy toQ then parseCalendarDate (toQ.getD "") endOfDayMs else none) ∧
    (truthy fromQ = true → lo ≠ none) ∧
    (truthy toQ = true → hi ≠ none) := by
  unfold buildDateFilter at h
  cases hf : truthy fromQ <;> cases ht : truthy toQ <;> rw [hf, ht] at h <;> simp at h
  · exact ⟨by simp [h.1.symm], by simp [h.2.symm], by simp, by simp⟩
  · cases hp : parseCalendarDate (toQ.getD "") endOfDayMs <;> rw [hp] at h <;> simp at h
    exact ⟨by simp [h.1.symm], by simp [hp, h.2.symm], by simp, by simp [h.2.symm]⟩
  · cases hp : parseCalendarDate (fromQ.getD "") 0 <;> rw [hp] at h <;> simp at h
    exact ⟨by simp [hp, h.1.symm], by simp [h.2.symm], by simp [h.1.symm], by simp⟩
  · cases hp : parseCalendarDate (fromQ.getD "") 0 <;> rw [hp] at h <;> simp at h
    cases hq : parseCalendarDate (toQ.getD "") endOfDayMs <;> rw [hq] at h <;> simp at h
    exact ⟨by simp [hp, h.1.symm], by simp [hq, h.2.symm],
      by simp [h.1.symm], by simp [h.2.symm]⟩

/-- A truthy unparseable `from` or `to` makes `buildDateFilter` fail with a
validation error. -/
lemma buildDateFilter_error_of_bad (fromQ toQ : Option String)
    (h : (truthy fromQ = true ∧ parseCalendarDate (fromQ.getD "") 0 = none) ∨
         (truthy toQ = true ∧ parseCalendarDate (toQ.getD "") endOfDayMs = none)) :
    ∃ m, buildDateFilter fromQ toQ = .error (.validationError m) := by
  unfold buildDateFilter
  rcases h with ⟨hf, hp⟩ | ⟨ht, hp⟩
  · rw [hf]
    simp only [Bool.true_or, if_true, hp]
    exact ⟨"Invalid from date format", rfl⟩
  · rw [ht]
    simp only [Bool.or_true, if_true, hp]
    cases hf : truthy fromQ
    · simp only [if_false, Bool.false_eq_true]
      exact ⟨"Invalid to date format", rfl⟩
    · simp only [if_true]
      cases hq : parseCalendarDate (fromQ.getD "") 0
      · exact ⟨"Invalid from date format", rfl⟩
      · exact ⟨"Invalid to date format", rfl⟩

/-- If the date filter fails to build, `getLog` propagates the error. -/
lemma getLog_error_of_filter (store : Store) (userId : String)
    (fromQ toQ limitQ : Option String) (tzOffset : Int) (e : ApiError)
    (hid : isValidObjectId userId = true) (u : UserDoc)
    (hu : findUserById store userId = some u)
    (hf : buildDateFilter fromQ toQ = .error e) :
    getLog store userId fromQ toQ limitQ tzOffset = .error e := by
  unfold getLog
  rw [hid]
  simp only [Bool.not_true, Bool.false_eq_true, if_false, hu, hf]

/-- The built query matches exactly the exercises of the user within the
(optional) bounds, both bounds inclusive. -/
lemma matchesQuery_iff (userId : String) (lo hi : Option Int) (e : ExerciseDoc) :
    matchesQuery userId lo hi e = true ↔
      e.userId = userId ∧ (∀ l, lo = some l → l ≤ e.date) ∧
        ∀ h2, hi = some h2 → e.date ≤ h2 := by
  unfold matchesQuery
  cases lo <;> cases hi <;> simp [Bool.and_eq_true, beq_iff_eq, and_assoc]

/-- Claim C1: for every user id and every `from`/`to`/`limit` combination, a
successful `getLog` reports `count` as the total number of stored exercises
of that user — independent of the date filter and the limit — while `log` is
the filtered, sorted, limited sequence. -/
theorem getLog_count_ignores_filter_and_limit (store : Store) (userId : String)
    (fromQ toQ limitQ : Option String) (tzOffset : Int) (r : LogResponse)
    (h : getLog store userId fromQ toQ limitQ tzOffset = .ok r) :
    r.count = countDocuments store userId ∧
    ∃ lo hi, buildDateFilter fromQ toQ = .ok (lo, hi) ∧
      r.log = (applyLimit limitQ (sortedMatches store userId lo hi)).map
        fun e => ⟨e.description, e.duration, renderLogDate e.date tzOffset⟩ := by
  obtain ⟨user, lo, hi, _, _, hb, hr⟩ := getLog_ok_elim _ _ _ _ _ _ _ h
  subst hr
  exact ⟨rfl, lo, hi, hb, rfl⟩

/-- Witness for C1: in the concrete 5-exercise scenario (2024-01-01 to
2024-01-05), `from=2024-01-03` with `limit=1` yields one log entry while
`count` is 5, the full per-user total. -/
theorem getLog_count_ignores_filter_and_limit_witness :
    getLog store5 uidA (some "2024-01-03") none (some "1") 0 =
      .ok ⟨uidA, "alice", 5, [⟨"run", ⟨30, 0⟩, "Wed Jan 03 2024"⟩]⟩ ∧
    (5 : Nat) = countDocuments store5 uidA ∧
    [(⟨"run", ⟨30, 0⟩, "Wed Jan 03 2024"⟩ : LogEntry)].length = 1 := by
  refine ⟨by decide, ?_, by decide⟩
  exact (getLog_count_ignores_filter_and_limit store5 uidA (some "2024-01-03") none
    (some "1") 0 ⟨uidA, "alice", 5, [⟨"run", ⟨30, 0⟩, "Wed Jan 03 2024"⟩]⟩ (by decide)).1

/-- Claim C2 (refuted — code bug): adding `date="2024-01-15"` on a server at
UTC-7 (`getTimezoneOffset() == 420`) stores noon UTC of 2024-01-15, but
`getLog` renders the entry as `"Sun Jan 14 2024"`.  The render step (lines
218-221) subtracts the timezone offset before `toDateString`, which itself
renders in local time, so the offset is compensated twice and the day shifts
for servers more than six hours from UTC — contradicting the code's own
comment "Convert to local date string without timezone issues". -/
theorem getLog_render_shifts_day_at_utc_minus_7 :
    (addExercise store1 uidA (some "run") (some "30") (some "2024-01-15") 0 420).2.exercises
      = [⟨uidA, "run", ⟨30, 0⟩, janNoon 15⟩] ∧
    getLog (addExercise store1 uidA (some "run") (some "30") (some "2024-01-15") 0 420).2
        uidA none none none 420
      = .ok ⟨uidA, "alice", 1, [⟨"run", ⟨30, 0⟩, "Sun Jan 14 2024"⟩]⟩ ∧
    civilFromDays (utcDayOf (janNoon 15)) = (2024, 1, 15) ∧
    "Sun Jan 14 2024" ≠ "Mon Jan 15 2024" := by decide

/-- Claim C3: with a valid id and an existing user, the exercise filter of a
successful `getLog` keeps exactly the user's exercises whose stored instant
is at least `from` at 00:00:00 UTC (when `from` is present) and at most `to`
at 23:59:59 UTC (when `to` is present), both bounds inclusive; a truthy
unparseable `from` or `to` makes `getLog` fail with a validation error. -/
theorem getLog_date_filter_correct (store : Store) (userId : String)
    (fromQ toQ limitQ : Option String) (tzOffset : Int) (u : UserDoc)
    (hid : isValidObjectId userId = true)
    (hu : findUserById store userId = some u) :
    (∀ lo hi, buildDateFilter fromQ toQ = .ok (lo, hi) →
      (lo = if truthy fromQ then parseCalendarDate (fromQ.getD "") 0 else none) ∧
      (hi = if truthy toQ then parseCalendarDate (toQ.getD "") endOfDayMs else none) ∧
      ∀ e : ExerciseDoc, matchesQuery userId lo hi e = true ↔
        e.userId = userId ∧ (∀ l, lo = some l → l ≤ e.date) ∧
          ∀ h2, hi = some h2 → e.date ≤ h2) ∧
    (((truthy fromQ = true ∧ parseCalendarDate (fromQ.getD "") 0 = none) ∨
      (truthy toQ = true ∧ parseCalendarDate (toQ.getD "") endOfDayMs = none)) →
      ∃ m, getLog store userId fromQ toQ limitQ tzOffset =
        .error (.validationError m)) := by
  constructor
  · intro lo hi hb
    obtain ⟨h1, h2, _, _⟩ := buildDateFilter_ok_elim _ _ _ _ hb
    exact ⟨h1, h2, fun e => matchesQuery_iff _ _ _ _⟩
  · intro hbad
    obtain ⟨m, hm⟩ := buildDateFilter_error_of_bad _ _ hbad
    exact ⟨m, getLog_error_of_filter _ _ _ _ _ _ _ hid u hu hm⟩

/-- Witness for C3: with `from=2024-01-03` the lower bound is midnight UTC of
2024-01-03 and the noon exercise of 2024-01-03 passes the filter; an
unparseable `from` makes the concrete `getLog` call fail with a validation
error. -/
theorem getLog_date_filter_correct_witness :
    ((some (daysFromCivil 2024 1 3 * msPerDay) : Option Int) =
      if truthy (some "2024-01-03") then parseCalendarDate ((some "2024-01-03").getD "") 0
      else none) ∧
    matchesQuery uidA (some (daysFromCivil 2024 1 3 * msPerDay)) none (exJan 3) = true ∧
    (∃ m, getLog store5 uidA (some "bad-date") none none 0 =
      .error (.validationError m)) := by
  have h := getLog_date_filter_correct store5 uidA (some "2024-01-03") none none 0 userA
    (by decide) (by decide)
  have h2 := getLog_date_filter_correct store5 uidA (some "bad-date") none none 0 userA
    (by decide) (by decide)
  refine ⟨(h.1 (some (daysFromCivil 2024 1 3 * msPerDay)) none (by decide)).1, by decide,
    h2.2 (.inl ⟨by decide, by decide⟩)⟩

/-- Claim C4: a `limit` parameter that `parseInt`s to a positive integer
truncates the ordered log to its first `limit` entries; a non-numeric or
non-positive `limit` is silently ignored — the call returns exactly what the
same call without a limit returns (no truncation, no error). -/
theorem getLog_limit_behavior (store : Store) (userId : String)
    (fromQ toQ : Option String) (tzOffset : Int) (s : String) :
    (∀ n : Int, jsParseInt s = some n → 0 < n →
      getLog store userId fromQ toQ (some s) tzOffset =
        (getLog store userId fromQ toQ none tzOffset).map
          fun r => ⟨r._id, r.username, r.count, r.log.take n.toNat⟩) ∧
    ((jsParseInt s = none ∨ ∃ m, jsParseInt s = some m ∧ m ≤ 0) →
      getLog store userId fromQ toQ (some s) tzOffset =
        getLog store userId fromQ toQ none tzOffset) := by
  constructor
  · intro n hn hpos
    unfold getLog
    split
    · rfl
    · split
      · rfl
      · split
        · rfl
        · simp only [Except.map]
          rw [applyLimit_pos s n _ hn hpos]
          simp only [applyLimit, truthy, if_false, Bool.false_eq_true, List.map_take]
  · intro hcase
    unfold getLog
    split
    · rfl
    · split
      · rfl
      · split
        · rfl
        · rw [applyLimit_noop s _ hcase]
          rfl

/-- Witness for C4: on the 5-exercise store, `limit="2"` truncates the log to
two entries and `limit="abc"` behaves exactly like no limit at all. -/
theorem getLog_limit_behavior_witness :
    getLog store5 uidA none none (some "2") 0 =
      (getLog store5 uidA none none none 0).map
        (fun r => ⟨r._id, r.username, r.count, r.log.take (2 : Int).toNat⟩) ∧
    getLog store5 uidA none none (some "abc") 0 =
      getLog store5 uidA none none none 0 := by
  refine ⟨(getLog_limit_behavior store5 uidA none none 0 "2").1 2 (by decide) (by decide),
    (getLog_limit_behavior store5 uidA none none 0 "abc").2 (.inl (by decide))⟩

/-- Claim C5: the log of a successful `getLog` is the rendering of an
exercise sequence sorted ascending by the stored `date`, regardless of
insertion order. -/
theorem getLog_sorted_by_date (store : Store) (userId : String)
    (fromQ toQ limitQ : Option String) (tzOffset : Int) (r : LogResponse)
    (h : getLog store userId fromQ toQ limitQ tzOffset = .ok r) :
    ∃ es : List ExerciseDoc,
      r.log = es.map (fun e => ⟨e.description, e.duration, renderLogDate e.date tzOffset⟩) ∧
      es.Pairwise fun a b => a.date ≤ b.date := by
  obtain ⟨user, lo, hi, _, _, hb, hr⟩ := getLog_ok_elim _ _ _ _ _ _ _ h
  subst hr
  refine ⟨applyLimit limitQ (sortedMatches store userId lo hi), rfl, ?_⟩
  exact List.Pairwise.sublist (applyLimit_sublist _ _) (pairwise_sortByDate _)

/-- Witness for C5: three exercises inserted out of chronological order
(Jan 3, Jan 1, Jan 2) come back in ascending date order. -/
theorem getLog_sorted_by_date_witness :
    ∃ es : List ExerciseDoc,
      ([⟨"run", ⟨30, 0⟩, "Mon Jan 01 2024"⟩, ⟨"run", ⟨30, 0⟩, "Tue Jan 02 2024"⟩,
        ⟨"run", ⟨30, 0⟩, "Wed Jan 03 2024"⟩] : List LogEntry) =
        es.map (fun e => ⟨e.description, e.duration, renderLogDate e.date 0⟩) ∧
      es.Pairwise fun a b => a.date ≤ b.date := by
  have h := getLog_sorted_by_date store3shuffled uidA none none none 0
    ⟨uidA, "alice", 3, [⟨"run", ⟨30, 0⟩, "Mon Jan 01 2024"⟩,
      ⟨"run", ⟨30, 0⟩, "Tue Jan 02 2024"⟩, ⟨"run", ⟨30, 0⟩, "Wed Jan 03 2024"⟩]⟩
    (by decide)
  exact h

/-- Claim C6 (counterexample): `addExercise` accepts duration `"-5"` and
persists a non-positive duration, and accepts `"2.5"` and persists a
non-integer duration — the stored duration is not always a positive
integer. -/
theorem addExercise_duration_not_positive_integer :
    (addExercise store1 uidA (some "run") (some "-5") none 0 0).2.exercises
      = [⟨uidA, "run", ⟨-5, 0⟩, noonMs⟩] ∧
    ¬ (⟨-5, 0⟩ : JsNum).isPos ∧
    (addExercise store1 uidA (some "run") (some "2.5") none 0 0).2.exercises
      = [⟨uidA, "run", ⟨25, 1⟩, noonMs⟩] ∧
    ¬ (⟨25, 1⟩ : JsNum).isIntegral := by decide

/-- Claim C6 (amended): every exercise persisted by `addExercise` has a
duration equal to the JavaScript numeric value of the supplied `duration`
field — any numeric value, including non-positive and non-integer ones, is
accepted; only an absent/empty or non-numeric duration is rejected. -/
theorem addExercise_duration_is_numeric_value (store : Store) (userId : String)
    (description duration date : Option String) (now tzOffset : Int)
    (r : AddExerciseResponse) (st2 : Store)
    (h : addExercise store userId description duration date now tzOffset = (.ok r, st2)) :
    ∃ q t, jsNumber (duration.getD "") = some q ∧ r.duration = q ∧
      st2.exercises = store.exercises ++ [⟨userId, description.getD "", q, t⟩] := by
  obtain ⟨user, q, t, _, _, _, _, hq, ht, hr, hst⟩ := addExercise_ok_elim _ _ _ _ _ _ _ _ _ h
  exact ⟨q, t, hq, by rw [hr], by rw [hst]⟩

/-- Witness for C6 (amended): the `"-5"` call stores duration `-5`, the
numeric value of the input. -/
theorem addExercise_duration_is_numeric_value_witness :
    ∃ q t, jsNumber ((some "-5").getD "") = some q ∧
      (⟨uidA, "alice", "run", ⟨-5, 0⟩, "Thu Jan 01 1970"⟩ : AddExerciseResponse).duration = q ∧
      (⟨[userA], [(⟨uidA, "run", ⟨-5, 0⟩, noonMs⟩ : ExerciseDoc)]⟩ : Store).exercises =
        store1.exercises ++ [⟨uidA, "run", q, t⟩] :=
  addExercise_duration_is_numeric_value store1 uidA (some "run") (some "-5") none 0 0
    ⟨uidA, "alice", "run", ⟨-5, 0⟩, "Thu Jan 01 1970"⟩
    ⟨[userA], [⟨uidA, "run", ⟨-5, 0⟩, noonMs⟩]⟩ (by decide)

/-- Claim C7 (counterexample): at `now` = 2024-01-01T23:00:00Z on a server at
UTC+2 (`getTimezoneOffset() == -120`), the server's local calendar day is
2024-01-02, but the dateless exercise is stored at noon UTC of 2024-01-01 —
the **UTC** calendar day of `now` (`now.toISOString().split('T')[0]`), not
the server's local calendar day. -/
theorem addExercise_default_date_not_local_day :
    localCivilDay (daysFromCivil 2024 1 1 * msPerDay + 23 * 3600000) (-120) = (2024, 1, 2) ∧
    (addExercise store1 uidA (some "run") (some "30") none
        (daysFromCivil 2024 1 1 * msPerDay + 23 * 3600000) (-120)).2.exercises
      = [⟨uidA, "run", ⟨30, 0⟩, janNoon 1⟩] ∧
    civilFromDays (utcDayOf (janNoon 1)) = (2024, 1, 1) ∧
    ((2024, 1, 1) : Int × Int × Int) ≠ (2024, 1, 2) := by decide

/-- Noon of day `d` still falls on day `d`. -/
lemma utcDayOf_noon_anchor (d : Int) : utcDayOf (d * msPerDay + noonMs) = d := by
  unfold utcDayOf msPerDay noonMs
  rw [Int.fdiv_eq_ediv _ (by norm_num)]
  omega

/-- Claim C7 (amended): every successful `addExercise` call without a `date`
field stores noon UTC of the current UTC calendar day of the server clock. -/
theorem addExercise_default_date_utc_day (store : Store) (userId : String)
    (description duration : Option String) (now tzOffset : Int)
    (r : AddExerciseResponse) (st2 : Store)
    (h : addExercise store userId description duration none now tzOffset = (.ok r, st2)) :
    ∃ e, st2.exercises = store.exercises ++ [e] ∧
      e.date = utcDayOf now * msPerDay + noonMs ∧
      utcDayOf e.date = utcDayOf now := by
  obtain ⟨user, q, t, _, _, _, _, hq, ht, hr, hst⟩ := addExercise_ok_elim _ _ _ _ _ _ _ _ _ h
  have htv : t = utcDayOf now * msPerDay + noonMs := by
    unfold resolveExerciseDate truthy at ht
    simp at ht
    exact ht.symm
  exact ⟨⟨userId, description.getD "", q, t⟩, by rw [hst],
    htv, by rw [htv, utcDayOf_noon_anchor]⟩

/-- Witness for C7 (amended): at `now = 0` the stored date is noon UTC of day
zero (1970-01-01). -/
theorem addExercise_default_date_utc_day_witness :
    ∃ e, (⟨[userA], [(⟨uidA, "run", ⟨30, 0⟩, noonMs⟩ : ExerciseDoc)]⟩ : Store).exercises =
        store1.exercises ++ [e] ∧
      e.date = utcDayOf 0 * msPerDay + noonMs ∧
      utcDayOf e.date = utcDayOf 0 :=
  addExercise_default_date_utc_day store1 uidA (some "run") (some "30") 0 0
    ⟨uidA, "alice", "run", ⟨30, 0⟩, "Thu Jan 01 1970"⟩
    ⟨[userA], [⟨uidA, "run", ⟨30, 0⟩, noonMs⟩]⟩ (by decide)

/-- Claim C8: for both id-taking operations, a malformed id fails with the
invalid-id error and a well-formed but unknown id fails with the not-found
error; the two errors are distinct (distinguishable by the client), and
`addExercise` returns the store unchanged in both cases (no validation,
insertion or querying happens). -/
theorem id_checks_distinguish_errors (store : Store) (userId : String)
    (description duration date fromQ toQ limitQ : Option String) (now tzOffset : Int) :
    (isValidObjectId userId = false →
      addExercise store userId description duration date now tzOffset =
        (.error .invalidIdError, store) ∧
      getLog store userId fromQ toQ limitQ tzOffset = .error .invalidIdError) ∧
    (isValidObjectId userId = true → findUserById store userId = none →
      addExercise store userId description duration date now tzOffset =
        (.error .notFoundError, store) ∧
      getLog store userId fromQ toQ limitQ tzOffset = .error .notFoundError) ∧
    (ApiError.invalidIdError ≠ ApiError.notFoundError ∧
      ApiError.invalidIdError.message ≠ ApiError.notFoundError.message) := by
  refine ⟨fun h => ?_, fun h1 h2 => ?_, by decide, by decide⟩
  · unfold addExercise getLog
    rw [h]
    simp
  · unfold addExercise getLog
    rw [h1]
    simp [h2]

/-- Witness for C8: the malformed id `"zz"` yields the invalid-id error and
the well-formed absent id `uidB` yields the not-found error, on both
operations. -/
theorem id_checks_distinguish_errors_witness :
    (addExercise store1 "zz" (some "run") (some "30") none 0 0 =
        (.error .invalidIdError, store1) ∧
      getLog store1 "zz" none none none 0 = .error .invalidIdError) ∧
    (addExercise store1 uidB (some "run") (some "30") none 0 0 =
        (.error .notFoundError, store1) ∧
      getLog store1 uidB none none none 0 = .error .notFoundError) :=
  ⟨(id_checks_distinguish_errors store1 "zz" (some "run") (some "30") none none none
      none 0 0).1 (by decide),
   (id_checks_distinguish_errors store1 uidB (some "run") (some "30") none none none
      none 0 0).2.1 (by decide) (by decide)⟩

/-- Claim C9: `addExercise` is atomic on failure — whenever it returns an
error, for any cause, the store comes back unchanged and no exercise
document is inserted. -/
theorem addExercise_atomic_on_failure (store : Store) (userId : String)
    (description duration date : Option String) (now tzOffset : Int) (err : ApiError)
    (h : (addExercise store userId description duration date now tzOffset).1 = .error err) :
    (addExercise store userId description duration date now tzOffset).2 = store := by
  rcases addExercise_shape store userId description duration date now tzOffset with
    ⟨r, e, he⟩ | ⟨err2, he⟩
  · rw [he] at h
    simp at h
  · rw [he]

/-- Witness for C9: the non-numeric duration `"abc"` fails validation and the
store is unchanged. -/
theorem addExercise_atomic_on_failure_witness :
    (addExercise store1 uidA (some "run") (some "abc") none 0 0).1 =
      .error (.validationError "Duration must be a number") ∧
    (addExercise store1 uidA (some "run") (some "abc") none 0 0).2 = store1 :=
  ⟨by decide, addExercise_atomic_on_failure store1 uidA (some "run") (some "abc") none
    0 0 (.validationError "Duration must be a number") (by decide)⟩

/-- Claim C10: the `date` string of a successful `addExercise` response equals
the string `getLog` renders for the stored exercise — both apply the same
offset-compensated rendering (`renderResponseDate` = `renderLogDate`) to the
same stored UTC instant. -/
theorem response_date_matches_log_render (store : Store) (userId : String)
    (description duration date : Option String) (now tzOffset : Int)
    (r : AddExerciseResponse) (st2 : Store)
    (h : addExercise store userId description duration date now tzOffset = (.ok r, st2)) :
    ∃ e, st2.exercises = store.exercises ++ [e] ∧
      r.date = renderLogDate e.date tzOffset ∧
      renderResponseDate e.date tzOffset = renderLogDate e.date tzOffset := by
  obtain ⟨user, q, t, _, _, _, _, hq, ht, hr, hst⟩ := addExercise_ok_elim _ _ _ _ _ _ _ _ _ h
  refine ⟨⟨userId, description.getD "", q, t⟩, by rw [hst], ?_, rfl⟩
  rw [hr]
  rfl

/-- Witness for C10: the 2024-01-15 exercise added at UTC-7 responds and logs
the same rendered string. -/
theorem response_date_matches_log_render_witness :
    ∃ e, (⟨[userA], [(⟨uidA, "run", ⟨30, 0⟩, janNoon 15⟩ : ExerciseDoc)]⟩ : Store).exercises
        = store1.exercises ++ [e] ∧
      (⟨uidA, "alice", "run", ⟨30, 0⟩, "Sun Jan 14 2024"⟩ : AddExerciseResponse).date
        = renderLogDate e.date 420 ∧
      renderResponseDate e.date 420 = renderLogDate e.date 420 :=
  response_date_matches_log_render store1 uidA (some "run") (some "30")
    (some "2024-01-15") 0 420 ⟨uidA, "alice", "run", ⟨30, 0⟩, "Sun Jan 14 2024"⟩
    ⟨[userA], [⟨uidA, "run", ⟨30, 0⟩, janNoon 15⟩]⟩ (by decide)
